import Mathlib

/-!
Verification of the arxiv_paper_hunter acquisition-and-triage pipeline.

Shallow embedding of the core components of the repository:
`harvester.py` (query builder, pagination loop, feed parsing),
`gatekeeper.py` (three-tier classification cascade), and
`archivist.py` (slugs, date extraction, path derivation, PDF download).

Network calls and the XML parser are modelled as oracles / already
structured data; machine-level details (HTTP, filesystem) appear as
explicit effect traces where a claim is about their ordering.
-/

namespace ArxivPaperHunter

/-! ### String helpers shared by several modules -/

/-- Python whitespace test used by `str.split()` / `str.strip()`
(space, tab, newline, carriage return, vertical tab, form feed). -/
def isPyWS (c : Char) : Bool :=
  c = ' ' || c = '\t' || c = '\n' || c = '\r' || c = Char.ofNat 11 || c = Char.ofNat 12

/-- Python `str.split()` with no argument: split on whitespace runs, dropping
empty pieces.  The accumulator holds the current word reversed. -/
def splitWSAux : List Char → List Char → List (List Char)
  | [], acc => if acc = [] then [] else [acc.reverse]
  | c :: cs, acc =>
    if isPyWS c then
      if acc = [] then splitWSAux cs [] else acc.reverse :: splitWSAux cs []
    else
      splitWSAux cs (c :: acc)

def splitWS (l : List Char) : List (List Char) := splitWSAux l []

/-- Embedding of `ArxivHarvester._clean`: `" ".join(textwrap.dedent(text).split())`
(the `dedent` only rewrites whitespace, which `split()` then collapses,
so the composite is plain whitespace normalisation); `None`/empty input
gives the empty string. -/
def cleanText (s : String) : String :=
  String.intercalate " " ((splitWS s.data).map (fun w => String.mk w))

/-- Python `str.strip()` on both ends (whitespace). -/
def stripWS (s : String) : String :=
  String.mk (((s.data.dropWhile isPyWS).reverse.dropWhile isPyWS).reverse)

/-! ### Data model (`harvester.py` dataclasses) -/

structure Author where
  name : String
  affiliation : Option String
deriving DecidableEq, Repr

structure Paper where
  arxiv_id : String
  title : String
  summary : String
  published : String
  updated : String
  authors : List Author
  pdf_url : Option String
  categories : List String
deriving DecidableEq, Repr

/-- Embedding of `Paper.first_author`: `self.authors[0].name if self.authors else "unknown"`. -/
def Paper.first_author (p : Paper) : String :=
  match p.authors with
  | [] => "unknown"
  | a :: _ => a.name

/-! ### `archivist.slugify` -/

/-- Membership in the character class `[a-z0-9]` of the slug regexes. -/
def isSlugChar (c : Char) : Bool :=
  ('a' ≤ c && c ≤ 'z') || ('0' ≤ c && c ≤ '9')

/-- Replace every maximal run of characters satisfying `p` by the single
character `rep` (the effect of `re.sub(r"[...]+", rep, text)` for a
character-class pattern). -/
def collapseRuns (p : Char → Bool) (rep : Char) : List Char → List Char
  | [] => []
  | [c] => if p c then [rep] else [c]
  | c :: d :: cs =>
    if p c && p d then collapseRuns p rep (d :: cs)
    else (if p c then rep else c) :: collapseRuns p rep (d :: cs)

/-- Python `str.strip("_")`. -/
def stripUnderscores (l : List Char) : List Char :=
  ((l.dropWhile (fun c => c = '_')).reverse.dropWhile (fun c => c = '_')).reverse

/-- Python `str.rstrip("_")`. -/
def rstripUnderscore (l : List Char) : List Char :=
  (l.reverse.dropWhile (fun c => c = '_')).reverse

/-- The normalisation part of `slugify` (`archivist.py` lines 19-21):
lowercase, collapse non-alphanumeric runs to `_`, collapse `_` runs,
strip `_` from both ends. -/
def slugNormalize (s : List Char) : List Char :=
  stripUnderscores
    (collapseRuns (fun c => c = '_') '_'
      (collapseRuns (fun c => !isSlugChar c) '_' (s.map Char.toLower)))

/-- Embedding of `archivist.slugify`: normalise, truncate to `maxLength` dropping a
dangling `_`, and fall back to `"paper"` when empty. -/
def slugify (maxLength : Nat) (s : List Char) : List Char :=
  let t := slugNormalize s
  let t2 := if maxLength < t.length then rstripUnderscore (t.take maxLength) else t
  if t2 = [] then "paper".data else t2

/-- The `slugify` function on `String`s with the default `max_length = 80`. -/
def slugifyStr (s : String) : String := String.mk (slugify 80 s.data)

/-! ### `gatekeeper.py` -/

structure FilterOutcome where
  accepted : Bool
  level : Option String
  company : Option String
  evidence : Option String
deriving DecidableEq, Repr

/-- Case-insensitive "pattern is a prefix of the text here" test, the
per-position step of `re.search` with `re.IGNORECASE` on a literal
alternative. -/
def startsWithCI : List Char → List Char → Bool
  | [], _ => true
  | _ :: _, [] => false
  | p :: ps, c :: cs => (c.toLower = p.toLower) && startsWithCI ps cs

/-- Embedding of `compile_company_pattern`: `re.compile("|".join(map(re.escape, lowered)), IGNORECASE)`.
`re.escape` only neutralises metacharacters, so each alternative matches
itself literally; an empty whitelist joins to the empty pattern, which is
the single empty literal alternative (it matches everywhere). -/
def compile_company_pattern (companies : List String) : List (List Char) :=
  match companies with
  | [] => [[]]
  | _ => companies.map (fun c => c.data.map Char.toLower)

/-- Semantics of `pattern.search(s)` for a literal alternation: scan positions left to
right, at each position try the alternatives in order, return `group(0)`
(the matched slice of `s`, in its original case). -/
def regexSearch (alts : List (List Char)) : List Char → Option (List Char)
  | [] => (alts.find? (fun a => startsWithCI a [])).map (fun _ => [])
  | c :: cs =>
    match alts.find? (fun a => startsWithCI a (c :: cs)) with
    | some a => some ((c :: cs).take a.length)
    | none => regexSearch alts cs

/-- Embedding of `self.pattern.search(field)` returning the matched substring. -/
def patternSearch (companies : List String) (field : String) : Option String :=
  (regexSearch (compile_company_pattern companies) field.data).map (fun l => String.mk l)

/-- The tier-1 field list of `Gatekeeper.filter` (lines 40-46): each
truthy author affiliation, then the space-joined author names, then the
title, then the summary. -/
def metaFields (p : Paper) : List String :=
  (p.authors.filterMap (fun a =>
    match a.affiliation with
    | some s => if s = "" then none else some s
    | none => none))
  ++ [String.intercalate " " (p.authors.map (fun a => a.name)), p.title, p.summary]

/-- Tier 3 of `Gatekeeper.filter`: invoke the optional LLM checker; a
raised exception is caught and falls through to the rejection outcome,
exactly like a `false` vote.  The `Bool` in the result records whether
the checker was invoked. -/
def llmStage (p : Paper) (llm_checker : Option (Paper → Except String Bool)) :
    FilterOutcome × Bool :=
  match llm_checker with
  | none => (⟨false, none, none, none⟩, false)
  | some chk =>
    match chk p with
    | Except.ok true => (⟨true, some "llm", none, some "LLM vote"⟩, true)
    | Except.ok false => (⟨false, none, none, none⟩, true)
    | Except.error _ => (⟨false, none, none, none⟩, true)

/-- Embedding of `Gatekeeper.filter`: the three-tier cascade.  Returns the outcome
paired with a flag telling whether the LLM checker was invoked. -/
def gatekeeperFilter (companies : List String) (p : Paper)
    (email_text : Option String)
    (llm_checker : Option (Paper → Except String Bool)) :
    FilterOutcome × Bool :=
  match (metaFields p).findSome?
      (fun f => (patternSearch companies f).map (fun m => (m, f))) with
  | some (m, f) => (⟨true, some "metadata", some m, some f⟩, false)
  | none =>
    match email_text with
    | some e =>
      if e = "" then llmStage p llm_checker
      else
        match patternSearch companies e with
        | some m => (⟨true, some "email", some m, some e⟩, false)
        | none => llmStage p llm_checker
    | none => llmStage p llm_checker

/-! ### `harvester.py`: query builder -/

/-- A calendar date as carried by `SearchConfig.since/until`. -/
structure SimpleDate where
  year : Nat
  month : Nat
  day : Nat
deriving DecidableEq, Repr

/-- Numeric key giving the chronological order of `SimpleDate`s. -/
def SimpleDate.key (d : SimpleDate) : Nat :=
  d.year * 10000 + d.month * 100 + d.day

def SimpleDate.le (a b : SimpleDate) : Prop := a.key ≤ b.key

/-- Zero-pad a decimal representation on the left to `width` digits. -/
def padZeros (width : Nat) (s : String) : String :=
  if s.length < width then String.mk (List.replicate (width - s.length) '0') ++ s
  else s

/-- Python `date.strftime("%Y%m%d")`. -/
def strftimeYMD (d : SimpleDate) : String :=
  padZeros 4 (toString d.year) ++ padZeros 2 (toString d.month) ++ padZeros 2 (toString d.day)

/-- The `submittedDate` clause of `_build_query` (line 59): range from
`start` at 00:00 to `end` at 23:59. -/
def dateClause (d1 d2 : SimpleDate) : String :=
  "submittedDate:[" ++ strftimeYMD d1 ++ "0000 TO " ++ strftimeYMD d2 ++ "2359]"

/-- Embedding of `ArxivHarvester._build_query` (lines 51-64). -/
def build_query (keywords : List String) (d1 d2 : SimpleDate)
    (categories : List String) : String :=
  let keywordClause :=
    String.intercalate " OR " (keywords.map (fun kw => "all:\"" ++ kw ++ "\""))
  let cats := categories.filterMap (fun c =>
    if c ≠ "" && stripWS c ≠ "" then some (stripWS c) else none)
  let catClause :=
    if cats = [] then ""
    else " AND (" ++ String.intercalate " OR " (cats.map (fun c => "cat:" ++ c)) ++ ")"
  "(" ++ keywordClause ++ ") AND " ++ dateClause d1 d2 ++ catClause

/-! ### `harvester.py`: pagination loop

`_fetch_chunk` (network request + parse) is abstracted as an oracle
`fetch start max_results ↦ parsed chunk`; `searchRun` also records each
`(start, max_results)` request issued so the claims about request count
and size can be stated.  The loop advances `start` by `page_size` while
`start < max_results`, so with a positive page size it runs at most
`maxResults` iterations; `maxResults + 1` fuel is therefore never
exhausted in the claims below. -/

def searchAux (fetch : Nat → Nat → List Paper) (maxResults pageSize : Nat) :
    Nat → Nat → List Paper → List (Nat × Nat) → List Paper × List (Nat × Nat)
  | 0, _, acc, reqs => (acc, reqs)
  | fuel + 1, start, acc, reqs =>
    if start < maxResults then
      let chunk := fetch start pageSize
      let reqs2 := reqs ++ [(start, pageSize)]
      if chunk = [] then (acc, reqs2)
      else if chunk.length < pageSize then (acc ++ chunk, reqs2)
      else searchAux fetch maxResults pageSize fuel (start + pageSize) (acc ++ chunk) reqs2
    else (acc, reqs)

/-- Embedding of `ArxivHarvester.search` (lines 79-90): papers accumulated and the
page requests issued, in order. -/
def searchRun (fetch : Nat → Nat → List Paper) (maxResults pageSize : Nat) :
    List Paper × List (Nat × Nat) :=
  searchAux fetch maxResults pageSize (maxResults + 1) 0 [] []

/-- The list `k :: k+1 :: ... :: k+n-1`, the page indices of a run. -/
def idxList : Nat → Nat → List Nat
  | _, 0 => []
  | k, n + 1 => k :: idxList (k + 1) n

/-! ### `harvester.py`: feed parsing

The XML document is modelled after `ElementTree` access patterns:
`findtext` is an `Option String` (`none` = element absent, `some` =
its text), attributes likewise. -/

structure XmlAuthor where
  name : Option String
  affiliation : Option String
deriving DecidableEq, Repr

structure XmlLink where
  linkType : Option String
  href : Option String
deriving DecidableEq, Repr

structure XmlEntry where
  entryId : Option String
  title : Option String
  summary : Option String
  published : Option String
  updated : Option String
  authors : List XmlAuthor
  links : List XmlLink
  categories : List (Option String)
deriving DecidableEq, Repr

/-- Author construction in `_parse_feed` (lines 114-123): cleaned name,
and `clean(affiliation) or None`. -/
def parseAuthor (a : XmlAuthor) : Author :=
  { name := cleanText (a.name.getD "")
    affiliation :=
      let aff := cleanText (a.affiliation.getD "")
      if aff = "" then none else some aff }

/-- PDF link selection (lines 124-128): the first link whose `type`
attribute is `application/pdf` decides, its `href` taken as is. -/
def findPdfUrl : List XmlLink → Option String
  | [] => none
  | l :: ls => if l.linkType = some "application/pdf" then l.href else findPdfUrl ls

/-- Embedding of `ArxivHarvester._parse_feed` (lines 105-146) on an already
structured document. -/
def parse_feed (entries : List XmlEntry) : List Paper :=
  entries.map (fun e =>
    { arxiv_id := e.entryId.getD ""
      title := cleanText (e.title.getD "")
      summary := cleanText (e.summary.getD "")
      published := e.published.getD ""
      updated := e.updated.getD ""
      authors := e.authors.map parseAuthor
      pdf_url := findPdfUrl e.links
      categories := e.categories.filterMap (fun t =>
        match t with
        | some s => if s = "" then none else some s
        | none => none) })

/-! ### `archivist.py`: dates, paths, download -/

/-- Embedding of `extract_date` (lines 27-31): the `YYYY-MM-DD` part (before the
first `T`) of `published`, else of `updated`, else today's ISO date,
with "today" passed explicitly since the embedding is pure. -/
def extract_date (today : String) (p : Paper) : String :=
  if p.published ≠ "" then String.mk (p.published.data.takeWhile (fun c => c ≠ 'T'))
  else if p.updated ≠ "" then String.mk (p.updated.data.takeWhile (fun c => c ≠ 'T'))
  else today

/-- Embedding of `Archivist.build_pdf_path` (lines 43-50).  The returned value is the
path string; the `ensure_folder` side effect is modelled separately in
the download trace. -/
def build_pdf_path (baseDir today : String) (p : Paper) (company : Option String) :
    String :=
  let day := extract_date today p
  let companyToken :=
    match company with
    | some c => if c = "" then "unknown" else slugifyStr c
    | none => "unknown"
  let authorToken := slugifyStr p.first_author
  let titleToken := slugifyStr p.title
  baseDir ++ "/" ++ day ++ "/" ++ day ++ "_" ++ companyToken ++ "_" ++ authorToken
    ++ "_" ++ titleToken ++ ".pdf"

inductive DownloadErr where
  | precondition (msg : String)
  | transport (msg : String)
deriving DecidableEq, Repr

inductive Effect where
  | ensureFolder (path : String)
  | httpGet (url : String)
  | writeFile (path : String)
deriving DecidableEq, Repr

/-- Embedding of `Archivist.download_pdf` (lines 52-64) with the side effects made
explicit as a trace: the missing-URL precondition check happens first
(an empty trace), then the folder is created while deriving the path,
then the GET, then the streamed write.  `net` is the network oracle;
its failure is a transport error (`raise_for_status`). -/
def download_pdf (baseDir today : String) (net : String → Except String Unit)
    (p : Paper) (company : Option String) :
    List Effect × Except DownloadErr String :=
  match p.pdf_url with
  | none => ([], Except.error (DownloadErr.precondition
      ("No PDF URL for paper " ++ p.arxiv_id)))
  | some url =>
    if url = "" then
      ([], Except.error (DownloadErr.precondition
        ("No PDF URL for paper " ++ p.arxiv_id)))
    else
      let day := extract_date today p
      let target := build_pdf_path baseDir today p company
      match net url with
      | Except.error e =>
        ([Effect.ensureFolder (baseDir ++ "/" ++ day), Effect.httpGet url],
          Except.error (DownloadErr.transport e))
      | Except.ok _ =>
        ([Effect.ensureFolder (baseDir ++ "/" ++ day), Effect.httpGet url,
          Effect.writeFile target], Except.ok target)

/-- Python truthiness of `paper.pdf_url` being falsy (`None` or `""`),
the precondition tested by `download_pdf`. -/
def hasNoPdfUrl (p : Paper) : Prop := p.pdf_url = none ∨ p.pdf_url = some ""

instance (p : Paper) : Decidable (hasNoPdfUrl p) := by
  unfold hasNoPdfUrl; infer_instance

instance (a b : SimpleDate) : Decidable (SimpleDate.le a b) := by
  unfold SimpleDate.le; infer_instance

/-! ### Concrete sample inputs used by witnesses and counterexamples -/

/-- A minimal paper record. -/
def paperA : Paper := ⟨"a1", "", "", "", "", [], none, []⟩

/-- A paper none of whose metadata fields mention `acme`. -/
def paperPlain : Paper :=
  ⟨"p1", "a quiet title", "a quiet summary", "", "", [⟨"Jane Roe", none⟩], none, []⟩

/-- A paper whose title mentions `acme`. -/
def paperAcme : Paper :=
  ⟨"p2", "results from acme labs", "a summary", "", "", [⟨"Jane Roe", none⟩], none, []⟩

/-- A paper with a published timestamp and a PDF link. -/
def paperDated : Paper :=
  ⟨"p3", "A Title!", "s", "2024-03-01T12:00:00Z", "", [⟨"Jane Doe", none⟩],
    some "http://x/pdf", []⟩

/-- A feed entry carrying no `atom:id` element at all. -/
def entryNoId : XmlEntry := ⟨none, none, none, none, none, [], [], []⟩

/-- A feed entry with a non-empty id and no authors. -/
def entryWithId : XmlEntry :=
  ⟨some "http://arxiv.org/abs/1234.5678", some "t", some "s", none, none, [], [], []⟩

/-! ## Theorems -/

/-! ### Helper lemmas -/

lemma head?_dropWhile_false {α} (p : α → Bool) :
    ∀ (l : List α) (c : α), (l.dropWhile p).head? = some c → p c = false := by
  intro l
  induction l with
  | nil => intro c h; simp [List.dropWhile] at h
  | cons a l ih =>
    intro c h
    by_cases hp : p a = true
    · rw [List.dropWhile_cons_of_pos hp] at h
      exact ih c h
    · rw [List.dropWhile_cons_of_neg hp] at h
      simp at h
      subst h
      simpa using hp

lemma length_dropWhile_le {α} (p : α → Bool) :
    ∀ l : List α, (l.dropWhile p).length ≤ l.length := by
  intro l
  induction l with
  | nil => simp [List.dropWhile]
  | cons a l ih =>
    by_cases hp : p a = true
    · rw [List.dropWhile_cons_of_pos hp]
      exact Nat.le_succ_of_le ih
    · rw [List.dropWhile_cons_of_neg hp]

lemma rstripUnderscore_length_le (l : List Char) :
    (rstripUnderscore l).length ≤ l.length := by
  unfold rstripUnderscore
  calc ((l.reverse.dropWhile (fun c => c = '_')).reverse).length
      = (l.reverse.dropWhile (fun c => c = '_')).length := List.length_reverse _
    _ ≤ l.reverse.length := length_dropWhile_le _ _
    _ = l.length := List.length_reverse _

lemma rstripUnderscore_no_trailing (l : List Char) :
    (rstripUnderscore l).getLast? ≠ some '_' := by
  unfold rstripUnderscore
  intro h
  rw [List.getLast?_reverse] at h
  have := head?_dropWhile_false (fun c => c = '_') l.reverse '_' h
  simp at this

/-! ### C6: `slugify` truncation and fallback -/

/-- C6: whenever the normalised form of the input (lowercased,
non-alphanumeric runs collapsed to single underscores, underscores
trimmed at both ends) is longer than 80 characters, `slugify` at the
default `max_length = 80` returns at most 80 characters and the result
does not end in an underscore; an input whose normalised form is empty
yields the literal `"paper"` placeholder. -/
theorem slugify_truncation (s : List Char) :
    (80 < (slugNormalize s).length →
      (slugify 80 s).length ≤ 80 ∧ (slugify 80 s).getLast? ≠ some '_')
    ∧ (slugNormalize s = [] → slugify 80 s = "paper".data) := by
  constructor
  · intro h
    simp only [slugify]
    rw [if_pos h]
    by_cases h2 : rstripUnderscore ((slugNormalize s).take 80) = []
    · rw [if_pos h2]
      refine ⟨by decide, by decide⟩
    · rw [if_neg h2]
      refine ⟨?_, rstripUnderscore_no_trailing _⟩
      calc (rstripUnderscore ((slugNormalize s).take 80)).length
          ≤ ((slugNormalize s).take 80).length := rstripUnderscore_length_le _
        _ ≤ 80 := by simp
  · intro h
    simp only [slugify]
    rw [h]
    simp

/-- Witness for C6 at a 100-character input and at an input whose
normalised form is empty. -/
theorem slugify_truncation_witness :
    (80 < (slugNormalize (List.replicate 100 'a')).length ∧
      (slugify 80 (List.replicate 100 'a')).length ≤ 80 ∧
      (slugify 80 (List.replicate 100 'a')).getLast? ≠ some '_')
    ∧ (slugNormalize "!!".data = [] ∧ slugify 80 "!!".data = "paper".data) :=
  ⟨⟨by decide, (slugify_truncation (List.replicate 100 'a')).1 (by decide)⟩,
   ⟨by decide, (slugify_truncation "!!".data).2 (by decide)⟩⟩

/-! ### C7: deterministic path derivation -/

/-- C7: `Archivist.build_pdf_path` is a pure function of the paper, the
company and the current date at evaluation time: two calls with equal
inputs return equal path strings. -/
theorem build_pdf_path_deterministic (baseDir t1 t2 : String) (p1 p2 : Paper)
    (c1 c2 : Option String) (ht : t1 = t2) (hp : p1 = p2) (hc : c1 = c2) :
    build_pdf_path baseDir t1 p1 c1 = build_pdf_path baseDir t2 p2 c2 := by
  subst ht
  subst hp
  subst hc
  rfl

/-- Witness for C7 at a concrete paper and company. -/
theorem build_pdf_path_deterministic_witness :
    "2026-10-12" = "2026-10-12" ∧ paperDated = paperDated
    ∧ (some "Google" : Option String) = some "Google"
    ∧ build_pdf_path "/base" "2026-10-12" paperDated (some "Google")
        = build_pdf_path "/base" "2026-10-12" paperDated (some "Google") :=
  ⟨rfl, rfl, rfl,
    build_pdf_path_deterministic "/base" "2026-10-12" "2026-10-12" paperDated paperDated
      (some "Google") (some "Google") rfl rfl rfl⟩

/-! ### C8: the query always carries the date-range clause -/

/-- C8: for every non-empty keyword list and valid date range
(`since ≤ until`), the query built by `_build_query` contains the
`submittedDate` range clause covering `[since 0000, until 2359]`,
whatever the keyword count and categories. -/
theorem build_query_contains_date_clause (keywords : List String)
    (d1 d2 : SimpleDate) (cats : List String)
    (_hk : keywords ≠ []) (_hd : SimpleDate.le d1 d2) :
    ∃ pre post, build_query keywords d1 d2 cats = pre ++ dateClause d1 d2 ++ post := by
  refine ⟨"(" ++ String.intercalate " OR "
      (keywords.map (fun kw => "all:\"" ++ kw ++ "\"")) ++ ") AND ",
    (if (cats.filterMap (fun c =>
          if c ≠ "" && stripWS c ≠ "" then some (stripWS c) else none)) = [] then ""
      else " AND (" ++ String.intercalate " OR "
        ((cats.filterMap (fun c =>
          if c ≠ "" && stripWS c ≠ "" then some (stripWS c) else none)).map
            (fun c => "cat:" ++ c)) ++ ")"), ?_⟩
  rfl

/-- Witness for C8 at one keyword, a one-day range and one category. -/
theorem build_query_contains_date_clause_witness :
    (["recsys"] : List String) ≠ []
    ∧ SimpleDate.le ⟨2026, 1, 2⟩ ⟨2026, 1, 31⟩
    ∧ ∃ pre post, build_query ["recsys"] ⟨2026, 1, 2⟩ ⟨2026, 1, 31⟩ ["cs.IR"]
        = pre ++ dateClause ⟨2026, 1, 2⟩ ⟨2026, 1, 31⟩ ++ post :=
  ⟨by decide, by decide,
    build_query_contains_date_clause ["recsys"] ⟨2026, 1, 2⟩ ⟨2026, 1, 31⟩ ["cs.IR"]
      (by decide) (by decide)⟩

/-! ### C9: download precondition -/

/-- C9: `download_pdf` fails with the precondition error exactly when
the paper's PDF link is absent (Python-falsy), and in that case the
effect trace is empty: no folder creation and no network transfer has
happened (path derivation itself is pure and its `ensure_folder` side
effect is part of the trace). -/
theorem download_pdf_precondition (baseDir today : String)
    (net : String → Except String Unit) (p : Paper) (company : Option String) :
    ((∃ m, (download_pdf baseDir today net p company).2
        = Except.error (DownloadErr.precondition m)) ↔ hasNoPdfUrl p)
    ∧ (hasNoPdfUrl p → (download_pdf baseDir today net p company).1 = []) := by
  unfold download_pdf hasNoPdfUrl
  cases hu : p.pdf_url with
  | none => simp
  | some url =>
    by_cases he : url = ""
    · subst he
      simp
    · dsimp only
      rw [if_neg he]
      cases net url with
      | error e => simp [he]
      | ok u => simp [he]

/-- Witness for C9: a paper without a PDF link fails the precondition
with an empty trace. -/
theorem download_pdf_precondition_witness :
    hasNoPdfUrl paperPlain
    ∧ (download_pdf "/base" "2026-10-12" (fun _ => Except.ok ()) paperPlain none).1 = [] :=
  ⟨by decide,
    (download_pdf_precondition "/base" "2026-10-12" (fun _ => Except.ok ()) paperPlain
      none).2 (by decide)⟩

/-! ### Gatekeeper lemmas -/

lemma findSome?_eq_none_of_all {α β} (g : α → Option β) :
    ∀ l : List α, (∀ a ∈ l, g a = none) → l.findSome? g = none := by
  intro l
  induction l with
  | nil => intro _; rfl
  | cons a l ih =>
    intro h
    rw [List.findSome?_cons]
    rw [h a (List.mem_cons_self a l)]
    exact ih (fun x hx => h x (List.mem_cons_of_mem a hx))

lemma findSome?_isSome_of_mem {α β} (g : α → Option β) :
    ∀ l : List α, (∃ a ∈ l, g a ≠ none) → ∃ b, l.findSome? g = some b := by
  intro l
  induction l with
  | nil => rintro ⟨a, ha, _⟩; exact absurd ha (List.not_mem_nil a)
  | cons a l ih =>
    rintro ⟨x, hx, hgx⟩
    rw [List.findSome?_cons]
    cases hga : g a with
    | some b => exact ⟨b, rfl⟩
    | none =>
      rcases List.mem_cons.1 hx with rfl | hx2
      · exact absurd hga hgx
      · exact ih ⟨x, hx2, hgx⟩

lemma patternSearch_empty_whitelist (f : String) : patternSearch [] f = some "" := by
  unfold patternSearch compile_company_pattern
  cases hd : f.data with
  | nil => rfl
  | cons c cs => rfl

lemma metaFields_ne_nil (p : Paper) : metaFields p ≠ [] := by
  unfold metaFields
  simp

/-! ### C10: empty whitelist accepts everything at the metadata tier -/

/-- C10: an empty company whitelist compiles to the empty alternation,
which matches every string; `Gatekeeper.filter` then accepts every paper
at the metadata tier with an empty matched company substring, and the
LLM checker is never invoked. -/
theorem gatekeeper_empty_whitelist (p : Paper) (email_text : Option String)
    (llm_checker : Option (Paper → Except String Bool)) :
    (gatekeeperFilter [] p email_text llm_checker).1.accepted = true
    ∧ (gatekeeperFilter [] p email_text llm_checker).1.level = some "metadata"
    ∧ (gatekeeperFilter [] p email_text llm_checker).1.company = some ""
    ∧ (gatekeeperFilter [] p email_text llm_checker).2 = false := by
  unfold gatekeeperFilter
  cases hmf : metaFields p with
  | nil => exact absurd hmf (metaFields_ne_nil p)
  | cons f fs =>
    rw [List.findSome?_cons, patternSearch_empty_whitelist f]
    exact ⟨rfl, rfl, rfl, rfl⟩

/-! ### C2: fixed cascade order, first match wins, LLM short-circuited -/

/-- C2: the cascade evaluates metadata, then side-channel text, then the
LLM, first match winning.  (i) If every tier-1 metadata field fails to
match and the supplied side-channel text matches, the outcome has
`level = email` and the LLM checker was not invoked; (ii) if any
metadata field matches, the outcome has `level = metadata` (so a paper
matching both metadata and side-channel text is classified `metadata`)
and the LLM checker was not invoked.  Together (i) and (ii) cover every
run in which a metadata or side-channel match succeeded, so the LLM
checker is never invoked in those runs. -/
theorem gatekeeper_cascade_order :
    (∀ (companies : List String) (p : Paper) (e m : String)
        (llm_checker : Option (Paper → Except String Bool)),
      (∀ f ∈ metaFields p, patternSearch companies f = none) →
      e ≠ "" →
      patternSearch companies e = some m →
      (gatekeeperFilter companies p (some e) llm_checker).1.level = some "email"
        ∧ (gatekeeperFilter companies p (some e) llm_checker).1.accepted = true
        ∧ (gatekeeperFilter companies p (some e) llm_checker).2 = false)
    ∧ (∀ (companies : List String) (p : Paper) (email_text : Option String)
        (llm_checker : Option (Paper → Except String Bool)),
      (∃ f ∈ metaFields p, patternSearch companies f ≠ none) →
      (gatekeeperFilter companies p email_text llm_checker).1.level = some "metadata"
        ∧ (gatekeeperFilter companies p email_text llm_checker).1.accepted = true
        ∧ (gatekeeperFilter companies p email_text llm_checker).2 = false) := by
  constructor
  · intro companies p e m llm_checker hmeta he hm
    have hnone : (metaFields p).findSome?
        (fun f => (patternSearch companies f).map (fun m' => (m', f))) = none := by
      apply findSome?_eq_none_of_all
      intro f hf
      rw [hmeta f hf]
      rfl
    unfold gatekeeperFilter
    rw [hnone]
    dsimp only
    rw [if_neg he, hm]
    exact ⟨rfl, rfl, rfl⟩
  · intro companies p email_text llm_checker hex
    obtain ⟨b, hb⟩ := findSome?_isSome_of_mem
      (fun f => (patternSearch companies f).map (fun m' => (m', f)))
      (metaFields p)
      (by
        obtain ⟨f, hf, hne⟩ := hex
        refine ⟨f, hf, ?_⟩
        cases hps : patternSearch companies f with
        | none => exact absurd hps hne
        | some m' => simp [hps])
    unfold gatekeeperFilter
    rw [hb]
    obtain ⟨m', f'⟩ := b
    exact ⟨rfl, rfl, rfl⟩

/-- Witness for C2: with whitelist `["acme"]`, `paperPlain` matches only
through the side-channel text (level `email`, LLM not invoked), while
`paperAcme` with the same side-channel text is classified `metadata`. -/
theorem gatekeeper_cascade_order_witness :
    ((∀ f ∈ metaFields paperPlain, patternSearch ["acme"] f = none)
      ∧ "contact: lab@acme.com" ≠ ""
      ∧ patternSearch ["acme"] "contact: lab@acme.com" = some "acme"
      ∧ (gatekeeperFilter ["acme"] paperPlain (some "contact: lab@acme.com")
          none).1.level = some "email"
      ∧ (gatekeeperFilter ["acme"] paperPlain (some "contact: lab@acme.com")
          none).2 = false)
    ∧ ((∃ f ∈ metaFields paperAcme, patternSearch ["acme"] f ≠ none)
      ∧ (gatekeeperFilter ["acme"] paperAcme (some "contact: lab@acme.com")
          none).1.level = some "metadata"
      ∧ (gatekeeperFilter ["acme"] paperAcme (some "contact: lab@acme.com")
          none).2 = false) :=
  ⟨⟨by decide, by decide, by decide,
    (gatekeeper_cascade_order.1 ["acme"] paperPlain "contact: lab@acme.com" "acme" none
      (by decide) (by decide) (by decide)).1,
    (gatekeeper_cascade_order.1 ["acme"] paperPlain "contact: lab@acme.com" "acme" none
      (by decide) (by decide) (by decide)).2.2⟩,
   ⟨by decide,
    (gatekeeper_cascade_order.2 ["acme"] paperAcme (some "contact: lab@acme.com") none
      (by decide)).1,
    (gatekeeper_cascade_order.2 ["acme"] paperAcme (some "contact: lab@acme.com") none
      (by decide)).2.2⟩⟩

/-! ### C4: a failing LLM checker is a negative vote -/

/-- C4: when neither the metadata tier nor the side-channel tier found a
match and the supplied LLM checker raises, `Gatekeeper.filter` catches
the exception and returns the rejection outcome (`accepted = false`,
every other field absent) — the very same result as a checker that
votes `false`. -/
theorem gatekeeper_llm_failure (companies : List String) (p : Paper)
    (email_text : Option String) (chk : Paper → Except String Bool) (msg : String)
    (hmeta : ∀ f ∈ metaFields p, patternSearch companies f = none)
    (hemail : ∀ e, email_text = some e → e ≠ "" → patternSearch companies e = none)
    (hchk : chk p = Except.error msg) :
    (gatekeeperFilter companies p email_text (some chk)).1
        = ⟨false, none, none, none⟩
    ∧ (gatekeeperFilter companies p email_text (some chk))
        = gatekeeperFilter companies p email_text (some (fun _ => Except.ok false)) := by
  have hnone : (metaFields p).findSome?
      (fun f => (patternSearch companies f).map (fun m' => (m', f))) = none := by
    apply findSome?_eq_none_of_all
    intro f hf
    rw [hmeta f hf]
    rfl
  have hstage : llmStage p (some chk) = (⟨false, none, none, none⟩, true) := by
    simp only [llmStage, hchk]
  have hstage2 : llmStage p (some (fun _ => Except.ok false))
      = (⟨false, none, none, none⟩, true) := by
    simp only [llmStage]
  unfold gatekeeperFilter
  rw [hnone]
  dsimp only
  cases email_text with
  | none =>
    dsimp only
    rw [hstage, hstage2]
    exact ⟨rfl, rfl⟩
  | some e =>
    dsimp only
    by_cases he : e = ""
    · rw [if_pos he, if_pos he, hstage, hstage2]
      exact ⟨rfl, rfl⟩
    · rw [if_neg he, if_neg he, hemail e rfl he, hstage, hstage2]
      exact ⟨rfl, rfl⟩

/-- Witness for C4: `paperPlain` against whitelist `["acme"]`, no
side-channel match, a checker that always raises. -/
theorem gatekeeper_llm_failure_witness :
    (∀ f ∈ metaFields paperPlain, patternSearch ["acme"] f = none)
    ∧ ((fun _ : Paper => Except.error "boom" : Paper → Except String Bool) paperPlain
        = Except.error "boom")
    ∧ (gatekeeperFilter ["acme"] paperPlain (some "no match here")
        (some (fun _ => Except.error "boom"))).1 = ⟨false, none, none, none⟩ :=
  ⟨by decide, rfl,
    (gatekeeper_llm_failure ["acme"] paperPlain (some "no match here")
      (fun _ => Except.error "boom") "boom" (by decide)
      (by intro e he _; cases he; decide) rfl).1⟩

/-! ### C1: page-request sizing -/

/-- C1 counterexample: with `maxResults = 1` and `pageSize = 3` the
single page request issued by `search` asks for `3` records — the full
`page_size` — not `min(pageSize, remaining cap) = 1` as claimed (the
loop always passes `cfg.page_size` to `_fetch_chunk`). -/
theorem search_request_size_counterexample :
    (searchRun (fun _ _ => []) 1 3).2 = [(0, 3)]
    ∧ ¬ (∀ r ∈ (searchRun (fun _ _ => ([] : List Paper)) 1 3).2,
          r.2 = min 3 (1 - r.1)) := by
  constructor
  · rfl
  · intro h
    have := h (0, 3) (by rw [show (searchRun (fun _ _ => ([] : List Paper)) 1 3).2
        = [(0, 3)] from rfl]; exact List.mem_singleton.2 rfl)
    simp at this

lemma searchAux_req_sizes (fetch : Nat → Nat → List Paper) (M pS : Nat) :
    ∀ fuel start acc reqs, (∀ r ∈ reqs, r.2 = pS) →
      ∀ r ∈ (searchAux fetch M pS fuel start acc reqs).2, r.2 = pS := by
  intro fuel
  induction fuel with
  | zero =>
    intro start acc reqs h
    exact h
  | succ f ih =>
    intro start acc reqs h
    by_cases hs : start < M
    · have h2 : ∀ r ∈ reqs ++ [(start, pS)], r.2 = pS := by
        intro r hr
        rcases List.mem_append.1 hr with hr1 | hr2
        · exact h r hr1
        · rw [List.mem_singleton.1 hr2]
      simp only [searchAux, if_pos hs]
      by_cases hc : fetch start pS = []
      · rw [if_pos hc]
        exact h2
      · rw [if_neg hc]
        by_cases hl : (fetch start pS).length < pS
        · rw [if_pos hl]
          exact h2
        · rw [if_neg hl]
          exact ih (start + pS) (acc ++ fetch start pS) (reqs ++ [(start, pS)]) h2
    · simp only [searchAux, if_neg hs]
      exact h

/-- C1 amended: each page request issued by `search` asks for exactly
`pageSize` records regardless of the remaining cap; in particular, when
`0 < maxResults < pageSize`, `search` issues exactly one page request,
sized to `pageSize` (and so may return up to `pageSize > maxResults`
records); when `maxResults = 0` no request is issued at all. -/
theorem search_request_size_amended (fetch : Nat → Nat → List Paper)
    (maxResults pageSize : Nat) (_hpS : 0 < pageSize) :
    (∀ r ∈ (searchRun fetch maxResults pageSize).2, r.2 = pageSize)
    ∧ (0 < maxResults → maxResults < pageSize →
        (searchRun fetch maxResults pageSize).2 = [(0, pageSize)])
    ∧ (maxResults = 0 → (searchRun fetch maxResults pageSize).2 = []) := by
  refine ⟨?_, ?_, ?_⟩
  · exact searchAux_req_sizes fetch maxResults pageSize (maxResults + 1) 0 [] []
      (by intro r hr; exact absurd hr (List.not_mem_nil r))
  · intro hM hMp
    obtain ⟨m, rfl⟩ : ∃ m, maxResults = m + 1 := ⟨maxResults - 1, by omega⟩
    unfold searchRun
    simp only [searchAux, if_pos hM]
    by_cases hc : fetch 0 pageSize = []
    · rw [if_pos hc]
      simp
    · rw [if_neg hc]
      by_cases hl : (fetch 0 pageSize).length < pageSize
      · rw [if_pos hl]
        simp
      · rw [if_neg hl]
        have hstop : ¬ (0 + pageSize < m + 1) := by omega
        simp only [searchAux, if_neg hstop]
        rfl
  · intro h
    subst h
    rfl

/-- Witness for C1 amended at `maxResults = 1`, `pageSize = 3`. -/
theorem search_request_size_amended_witness :
    (0 : Nat) < 3 ∧ (0 : Nat) < 1 ∧ (1 : Nat) < 3
    ∧ (∀ r ∈ (searchRun (fun _ _ => ([paperA] : List Paper)) 1 3).2, r.2 = 3)
    ∧ (searchRun (fun _ _ => ([paperA] : List Paper)) 1 3).2 = [(0, 3)] :=
  ⟨by decide, by decide, by decide,
    (search_request_size_amended (fun _ _ => [paperA]) 1 3 (by decide)).1,
    (search_request_size_amended (fun _ _ => [paperA]) 1 3 (by decide)).2.1
      (by decide) (by decide)⟩

/-! ### C5: parse invariants -/

/-- C5 counterexample: a feed entry with no `atom:id` element parses
successfully (the XML is well-formed) yet yields a `Paper` whose id is
the empty string, because `_parse_feed` defaults the missing text to
`""`. -/
theorem parse_feed_empty_id_counterexample :
    ∃ p ∈ parse_feed [entryNoId], p.arxiv_id = "" := by
  refine ⟨(parse_feed [entryNoId]).head (by decide), ?_, ?_⟩
  · exact List.head_mem _
  · rfl

/-- C5 amended: a parsed `Paper`'s id equals the feed entry's id text,
so it is non-empty whenever every entry carries a non-empty id text
(the real arXiv feed always does, but nothing in `_parse_feed` enforces
it); and a `Paper` with no authors still yields the sentinel
`"unknown"` first-author token rather than failing. -/
theorem parse_feed_id_amended (entries : List XmlEntry)
    (hids : ∀ e ∈ entries, e.entryId.getD "" ≠ "") :
    (∀ p ∈ parse_feed entries, p.arxiv_id ≠ "")
    ∧ (∀ p ∈ parse_feed entries, p.authors = [] → p.first_author = "unknown") := by
  constructor
  · intro p hp
    unfold parse_feed at hp
    obtain ⟨e, he, rfl⟩ := List.mem_map.1 hp
    exact hids e he
  · intro p hp hpa
    unfold Paper.first_author
    rw [hpa]

/-- Witness for C5 amended on a one-entry feed with a non-empty id and
no authors. -/
theorem parse_feed_id_amended_witness :
    (∀ e ∈ [entryWithId], e.entryId.getD "" ≠ "")
    ∧ (∀ p ∈ parse_feed [entryWithId], p.arxiv_id ≠ "")
    ∧ (∀ p ∈ parse_feed [entryWithId], p.authors = [] → p.first_author = "unknown") :=
  ⟨by decide,
    (parse_feed_id_amended [entryWithId] (by decide)).1,
    (parse_feed_id_amended [entryWithId] (by decide)).2⟩

/-! ### C3: N full pages then a short page -/

lemma list_drop_getD {α} :
    ∀ (l : List α) (k : Nat) (d : α), k < l.length →
      l.drop k = l.getD k d :: l.drop (k + 1) := by
  intro l
  induction l with
  | nil =>
    intro k d h
    simp at h
  | cons a l ih =>
    intro k d h
    cases k with
    | zero => simp [List.getD]
    | succ k =>
      rw [List.drop_succ_cons, List.getD_cons_succ]
      rw [show (a :: l).drop (k + 1 + 1) = l.drop (k + 1) from List.drop_succ_cons]
      exact ih k d (by simpa using h)

lemma idxList_length : ∀ (n k : Nat), (idxList k n).length = n := by
  intro n
  induction n with
  | zero => intro k; rfl
  | succ n ih => intro k; simp [idxList, ih]

/-- The pagination loop over a feed of `N` full pages followed by one
short page: starting at page `k` with `n = N - k` full pages left, the
loop appends exactly the remaining pages and issues one request per
remaining page. -/
lemma searchAux_pages (pages : List (List Paper)) (N pS M : Nat)
    (hpS : 0 < pS)
    (hlen : pages.length = N + 1)
    (hfull : ∀ i, i < N → (pages.getD i []).length = pS)
    (hshort : (pages.getD N []).length < pS)
    (hM : N * pS < M) :
    ∀ n k, k + n = N → ∀ fuel, n < fuel → ∀ acc reqs,
      searchAux (fun s _ => pages.getD (s / pS) []) M pS fuel (k * pS) acc reqs
        = (acc ++ (pages.drop k).flatten,
           reqs ++ (idxList k (n + 1)).map (fun i => (i * pS, pS))) := by
  intro n
  induction n with
  | zero =>
    intro k hk fuel hfuel acc reqs
    have hkN : k = N := by omega
    subst hkN
    obtain ⟨f, rfl⟩ : ∃ f, fuel = f + 1 := ⟨fuel - 1, by omega⟩
    simp only [searchAux, if_pos hM]
    have hdiv : k * pS / pS = k := Nat.mul_div_cancel _ hpS
    rw [hdiv]
    have hdropk : pages.drop k = [pages.getD k []] := by
      rw [list_drop_getD pages k [] (by omega)]
      rw [List.drop_eq_nil_of_le (by omega)]
    by_cases hc : pages.getD k [] = []
    · rw [if_pos hc, hdropk, hc]
      simp [idxList]
    · rw [if_neg hc, if_pos hshort, hdropk]
      simp [idxList]
  | succ n ih =>
    intro k hk fuel hfuel acc reqs
    obtain ⟨f, rfl⟩ : ∃ f, fuel = f + 1 := ⟨fuel - 1, by omega⟩
    have hkN : k < N := by omega
    have hlt : k * pS < M := by
      have h1 : k * pS ≤ N * pS := Nat.mul_le_mul_right pS (by omega)
      omega
    simp only [searchAux, if_pos hlt]
    have hdiv : k * pS / pS = k := Nat.mul_div_cancel _ hpS
    rw [hdiv]
    have hclen : (pages.getD k []).length = pS := hfull k hkN
    have hcne : ¬ pages.getD k [] = [] := by
      intro h0
      rw [h0] at hclen
      simp at hclen
      omega
    rw [if_neg hcne]
    have hnlt : ¬ (pages.getD k []).length < pS := by omega
    rw [if_neg hnlt]
    have hstep : k * pS + pS = (k + 1) * pS := by ring
    rw [hstep]
    rw [ih (k + 1) (by omega) f (by omega) (acc ++ pages.getD k [])
      (reqs ++ [(k * pS, pS)])]
    rw [list_drop_getD pages k [] (by omega)]
    simp [idxList, List.append_assoc]

/-- C3: for a feed yielding exactly `pageSize` records on each of `N`
full pages followed by one short final page, and a cap `maxResults`
exceeding `N * pageSize`, `search` returns exactly the concatenation of
all pages in page order and issues exactly `N + 1` page requests (each
sized `pageSize`, at offsets `0, pageSize, ..., N * pageSize`). -/
theorem search_pagination (pages : List (List Paper)) (N pS M : Nat)
    (hpS : 0 < pS)
    (hlen : pages.length = N + 1)
    (hfull : ∀ i, i < N → (pages.getD i []).length = pS)
    (hshort : (pages.getD N []).length < pS)
    (hM : N * pS < M) :
    (searchRun (fun s _ => pages.getD (s / pS) []) M pS).1 = pages.flatten
    ∧ (searchRun (fun s _ => pages.getD (s / pS) []) M pS).2
        = (idxList 0 (N + 1)).map (fun i => (i * pS, pS))
    ∧ ((searchRun (fun s _ => pages.getD (s / pS) []) M pS).2).length = N + 1 := by
  have hNM : N < M + 1 := by
    have h1 : N * 1 ≤ N * pS := Nat.mul_le_mul_left N hpS
    omega
  have key := searchAux_pages pages N pS M hpS hlen hfull hshort hM N 0 (by omega)
    (M + 1) (by omega) [] []
  rw [Nat.zero_mul] at key
  unfold searchRun
  rw [key]
  refine ⟨by simp, by simp, ?_⟩
  simp [idxList_length]

/-- Witness for C3: one full page of two records and a short final page
of one record (`N = 1`, `pageSize = 2`, `maxResults = 10`). -/
theorem search_pagination_witness :
    (0 : Nat) < 2
    ∧ ([[paperA, paperA], [paperA]] : List (List Paper)).length = 1 + 1
    ∧ (∀ i, i < 1 → (([[paperA, paperA], [paperA]] :
        List (List Paper)).getD i []).length = 2)
    ∧ (([[paperA, paperA], [paperA]] : List (List Paper)).getD 1 []).length < 2
    ∧ 1 * 2 < 10
    ∧ (searchRun (fun s _ => ([[paperA, paperA], [paperA]] :
          List (List Paper)).getD (s / 2) []) 10 2).1
        = ([[paperA, paperA], [paperA]] : List (List Paper)).flatten
    ∧ ((searchRun (fun s _ => ([[paperA, paperA], [paperA]] :
          List (List Paper)).getD (s / 2) []) 10 2).2).length = 1 + 1 :=
  ⟨by decide, by decide, by decide, by decide, by decide,
    (search_pagination [[paperA, paperA], [paperA]] 1 2 10 (by decide) (by decide)
      (by decide) (by decide) (by decide)).1,
    (search_pagination [[paperA, paperA], [paperA]] 1 2 10 (by decide) (by decide)
      (by decide) (by decide) (by decide)).2.2⟩

end ArxivPaperHunter
